import Mathlib

/-!
Shallow embedding of the autosave-and-snapshot subsystem of
`src/apps/smriti/src/lib/autosave.ts` together with its persisted data model
from `src/apps/smriti/src/lib/db.ts`.

Modelling conventions:
* JavaScript `undefined` (and an absent optional field) is `Option.none`.
  String and document fields are never `null` in any reachable state, so a
  single `Option` layer suffices for them.  A buffered `selection` can be
  `null` as well as absent, so `DraftUpdate.selection` is
  `Option (Option SelectionSnapshot)`: the outer layer is key presence
  (absent / `undefined`), the inner layer is `null` versus a value.  A stored
  `DraftRecord.selection` is always written through `?? null` by the source,
  so `Option SelectionSnapshot` with `none = null` is exact for it.
* `a ?? b` (JavaScript nullish coalescing) takes `b` exactly when `a` is
  `null` or `undefined`; the embedding spells this out per field.
* `Date.now()` timestamps, versions and store-assigned snapshot ids are `Nat`.
* The document payload (`DocJSON = unknown` in db.ts) is an opaque type
  parameter `δ`.
* The Dexie database is a `Store` value: each table is a list kept in
  insertion order (ascending primary key); the `++id` auto-increment counter
  of the `snapshots` table is `nextSnapId` (Dexie starts at 1).
* `db.snapshots.where('draftId').equals(d)` iterates the `draftId` index,
  i.e. rows of draft `d` in ascending primary-key order; `sortBy('createdAt')`
  sorts that array with a stable sort (Array.prototype.sort is stable), so
  ties on `createdAt` stay in ascending-id order.  The embedding uses a
  stable insertion sort `sortByCreatedAt`.
-/

namespace Smriti

variable {δ : Type}

/-- Selection range `{from, to}` from db.ts (`from`/`to` are Lean keywords,
so the fields are `fromPos`/`toPos`). -/
structure SelectionSnapshot where
  fromPos : Nat
  toPos : Nat
deriving DecidableEq

/-- Persisted current-draft row (db.ts `DraftRecord`). -/
structure DraftRecord (δ : Type) where
  id : String
  projectName : Option String
  promptName : Option String
  docJson : Option δ
  selection : Option SelectionSnapshot
  updatedAt : Nat
  version : Nat
deriving DecidableEq

/-- Persisted snapshot row (db.ts `SnapshotRecord`).  The source declares
`id?: number` because the key is store-assigned on `add`; every stored row
has it set, so the embedding makes it a plain `Nat`. -/
structure SnapshotRecord (δ : Type) where
  id : Nat
  draftId : String
  docJson : Option δ
  selection : Option SelectionSnapshot
  createdAt : Nat
deriving DecidableEq

/-- Partial field update fed to `onChange` (autosave.ts `DraftUpdate`). -/
structure DraftUpdate (δ : Type) where
  projectName : Option String
  promptName : Option String
  docJson : Option δ
  selection : Option (Option SelectionSnapshot)
deriving DecidableEq

/-- The in-memory Dexie database restricted to the two tables the autosave
core touches (`drafts`, `snapshots`). -/
structure Store (δ : Type) where
  drafts : List (DraftRecord δ)
  snapshots : List (SnapshotRecord δ)
  nextSnapId : Nat
deriving DecidableEq

/-- Dexie `db.drafts.get(draftId)`: lookup by primary key. -/
def draftsGet (s : Store δ) (draftId : String) : Option (DraftRecord δ) :=
  s.drafts.find? (fun r => r.id = draftId)

/-- Dexie `db.drafts.put(next)`: upsert by primary key. -/
def draftsPut (s : Store δ) (r : DraftRecord δ) : Store δ :=
  if s.drafts.any (fun x => x.id = r.id) then
    { s with drafts := s.drafts.map (fun x => if x.id = r.id then r else x) }
  else
    { s with drafts := s.drafts ++ [r] }

/-- Dexie `db.snapshots.get(snapshotId)`: lookup by primary key. -/
def snapshotsGet (s : Store δ) (snapshotId : Nat) : Option (SnapshotRecord δ) :=
  s.snapshots.find? (fun r => r.id = snapshotId)

/-- Dexie `db.snapshots.add({...})`: append a row, assigning the next
auto-increment id. -/
def snapshotsAdd (s : Store δ) (draftId : String) (doc : Option δ)
    (sel : Option SelectionSnapshot) (createdAt : Nat) : Store δ :=
  { s with
    snapshots := s.snapshots ++
      [{ id := s.nextSnapId, draftId := draftId, docJson := doc,
         selection := sel, createdAt := createdAt }]
    nextSnapId := s.nextSnapId + 1 }

/-- Dexie `db.snapshots.bulkDelete(ids)`: delete rows whose primary key is
listed. -/
def bulkDelete (s : Store δ) (ids : List Nat) : Store δ :=
  { s with snapshots := s.snapshots.filter (fun r => r.id ∉ ids) }

/-- Dexie `db.snapshots.where('draftId').equals(draftId)` as an array, in
ascending primary-key order (the order the `draftId` index yields). -/
def snapshotsWhere (s : Store δ) (draftId : String) : List (SnapshotRecord δ) :=
  s.snapshots.filter (fun r => r.draftId = draftId)

/-- Dexie `.sortBy('createdAt')`: a stable sort by `createdAt` (the
collection iterates in ascending primary-key order and Array.prototype.sort
is stable), modelled by stable insertion sort. -/
def sortByCreatedAt (l : List (SnapshotRecord δ)) : List (SnapshotRecord δ) :=
  l.insertionSort (fun a b => a.createdAt ≤ b.createdAt)

/-- The `next` draft computed inside `flush` (autosave.ts lines 58-66),
with JavaScript `??` spelled out: for `projectName`, `promptName`, `docJson`
the buffered value is nullish exactly when the key is absent; for `selection`
the buffered value `update.selection ?? prev?.selection ?? null` is also
nullish when it is an explicit `null` (`some none`). -/
def mkNext (draftId : String) (update : DraftUpdate δ)
    (prev : Option (DraftRecord δ)) (now : Nat) : DraftRecord δ :=
  { id := draftId
    projectName := update.projectName.orElse fun _ => prev.bind (fun p => p.projectName)
    promptName := update.promptName.orElse fun _ => prev.bind (fun p => p.promptName)
    docJson := update.docJson.orElse fun _ => prev.bind (fun p => p.docJson)
    selection :=
      match update.selection with
      | some (some v) => some v
      | _ => prev.bind (fun p => p.selection)
    updatedAt := now
    version := (prev.map (fun p => p.version)).getD 0 + 1 }

/-- The `flush` callback of `useAutosave` (autosave.ts lines 49-96), as its
effect on the store.  The guard `if (!bufferRef.current) return` in the
source can never take the early exit: `bufferRef.current` always holds an
object (initialised to `{}` and reset to `{}`), and every object is truthy
in JavaScript — so the embedded function proceeds unconditionally, whatever
the buffered `update` is.  The `.filter(Boolean)` over the collected ids
drops falsy numbers, i.e. `0`. -/
def flush (draftId : String) (update : DraftUpdate δ) (now : Nat)
    (snapshotLimit : Nat) (s : Store δ) : Store δ :=
  let prev := draftsGet s draftId
  let next := mkNext draftId update prev now
  let s1 := draftsPut s next
  let s2 := snapshotsAdd s1 draftId next.docJson next.selection now
  let rows := snapshotsWhere s2 draftId
  let count := rows.length
  if snapshotLimit < count then
    let toDelete := count - snapshotLimit
    let oldest := sortByCreatedAt rows
    let ids := ((oldest.take toDelete).map (fun r => r.id)).filter (fun i => i ≠ 0)
    if ids.isEmpty then s2 else bulkDelete s2 ids
  else s2

/-- Observable outcome of `restoreFromSnapshot`: the updated store, the
argument of the `setDraft` call if one happens, and the hook's error channel
(`setError`).  The source of `restoreFromSnapshot` (autosave.ts lines
141-157) contains no `setError` call and returns `Promise<void>`, so the
error channel is untouched on every path. -/
structure RestoreResult (δ : Type) where
  store : Store δ
  draftSet : Option (DraftRecord δ)
  errorSet : Option Unit
deriving DecidableEq

/-- The `restoreFromSnapshot` callback of `useAutosave` (autosave.ts lines
141-157).  The snapshot is fetched by `snapshotId` alone; `if (!snap) return`
is a silent early exit; `snap.selection ?? null` is the identity in the
embedding since a stored selection is never `undefined`. -/
def restoreFromSnapshot (draftId : String) (snapshotId : Nat) (now : Nat)
    (s : Store δ) : RestoreResult δ :=
  match snapshotsGet s snapshotId with
  | none => { store := s, draftSet := none, errorSet := none }
  | some snap =>
    let prev := draftsGet s draftId
    let next : DraftRecord δ :=
      { id := draftId
        projectName := prev.bind (fun p => p.projectName)
        promptName := prev.bind (fun p => p.promptName)
        docJson := snap.docJson
        selection := snap.selection
        updatedAt := now
        version := (prev.map (fun p => p.version)).getD 0 + 1 }
    { store := draftsPut s next, draftSet := some next, errorSet := none }

/-- The empty update buffer `{}`. -/
def emptyUpdate : DraftUpdate δ :=
  { projectName := none, promptName := none, docJson := none, selection := none }

/-- Buffer merge `{...bufferRef.current, ...update}` (autosave.ts line 99):
keys present in `update` override, keys absent leave the buffer untouched. -/
def mergeUpdate (b u : DraftUpdate δ) : DraftUpdate δ :=
  { projectName := u.projectName.orElse fun _ => b.projectName
    promptName := u.promptName.orElse fun _ => b.promptName
    docJson := u.docJson.orElse fun _ => b.docJson
    selection := u.selection.orElse fun _ => b.selection }

/-- Current draft version as observed through `db.drafts.get`; `0` when no
row exists (matching `prev?.version ?? 0`). -/
def versionOf (s : Store δ) (draftId : String) : Nat :=
  ((draftsGet s draftId).map (fun r => r.version)).getD 0

/-- Next-state computation as claim C2 (and spec §4.2 step 3) words it: for
each recognized attribute take the buffered value if PRESENT in the buffer —
an explicit null selection included — else the prior row's value, else leave
it absent.  Key presence decides, not JavaScript nullishness; this is the
spec-side definition to compare against `mkNext`. -/
def mkNextClaim (draftId : String) (update : DraftUpdate δ)
    (prev : Option (DraftRecord δ)) (now : Nat) : DraftRecord δ :=
  { id := draftId
    projectName := update.projectName.orElse fun _ => prev.bind (fun p => p.projectName)
    promptName := update.promptName.orElse fun _ => prev.bind (fun p => p.promptName)
    docJson := update.docJson.orElse fun _ => prev.bind (fun p => p.docJson)
    selection :=
      match update.selection with
      | some v => v
      | none => prev.bind (fun p => p.selection)
    updatedAt := now
    version := (prev.map (fun p => p.version)).getD 0 + 1 }

/-- Shared concrete example state: one draft `"d"` at version 1 whose live
row has a non-null selection, plus its first snapshot. -/
def exDraft : DraftRecord Nat :=
  { id := "d", projectName := some "p", promptName := none, docJson := some 7,
    selection := some { fromPos := 1, toPos := 2 }, updatedAt := 0, version := 1 }

/-- Shared concrete example snapshot row (id 1, owned by `"d"`). -/
def exSnap : SnapshotRecord Nat :=
  { id := 1, draftId := "d", docJson := some 7,
    selection := some { fromPos := 1, toPos := 2 }, createdAt := 0 }

/-- Shared concrete example store holding `exDraft` and `exSnap`. -/
def exStore : Store Nat :=
  { drafts := [exDraft], snapshots := [exSnap], nextSnapId := 2 }

/-- A buffer whose only content is an explicitly buffered null selection. -/
def exNullSelUpdate : DraftUpdate Nat :=
  { projectName := none, promptName := none, docJson := none,
    selection := some none }

/-- Foreign snapshot (id 9, owned by `"other"`) used to witness C10. -/
def exForeignSnap : SnapshotRecord Nat :=
  { id := 9, draftId := "other", docJson := some 42, selection := none,
    createdAt := 3 }

/-- Store holding a snapshot that belongs to another draft identity. -/
def exForeignStore : Store Nat :=
  { drafts := [exDraft], snapshots := [exSnap, exForeignSnap], nextSnapId := 10 }

/-- One write operation of the hook on its draft identity: a flush of some
buffer content at some time, or a restore of some snapshot id. -/
inductive HookOp (δ : Type) where
  | flushAt (now : Nat) (update : DraftUpdate δ)
  | restoreAt (now : Nat) (snapshotId : Nat)
deriving DecidableEq

/-- Apply one hook operation to the store. -/
def stepOp (draftId : String) (limit : Nat) (s : Store δ) : HookOp δ → Store δ
  | .flushAt now u => flush draftId u now limit s
  | .restoreAt now k => (restoreFromSnapshot draftId k now s).store

/-- Store states observed after each operation of a sequence. -/
def statesAfter (draftId : String) (limit : Nat) :
    Store δ → List (HookOp δ) → List (Store δ)
  | _, [] => []
  | s, op :: rest =>
    stepOp draftId limit s op :: statesAfter draftId limit (stepOp draftId limit s op) rest

/-- Every restore in the sequence finds its snapshot in the state it runs
against (a flush always succeeds in this failure-free model). -/
def allSuccessful (draftId : String) (limit : Nat) :
    Store δ → List (HookOp δ) → Bool
  | _, [] => true
  | s, op :: rest =>
    (match op with
     | .restoreAt _ k => (snapshotsGet s k).isSome
     | .flushAt _ _ => true) &&
    allSuccessful draftId limit (stepOp draftId limit s op) rest

/-- Store with no rows at all: a fresh Dexie database (auto-increment starts
at 1). -/
def exEmptyStore : Store Nat := { drafts := [], snapshots := [], nextSnapId := 1 }

/-- In-memory debounce state of the hook: the pending buffer
(`bufferRef.current`), the armed timer's deadline (`timerRef.current`), and
the contents handed to `flush` so far, in order. -/
structure DebounceState (δ : Type) where
  buffer : DraftUpdate δ
  timer : Option Nat
  flushed : List (DraftUpdate δ)
deriving DecidableEq

/-- Initial hook state: `bufferRef.current = {}`, `timerRef.current = null`,
no flush has run. -/
def initDebounce : DebounceState δ :=
  { buffer := emptyUpdate, timer := none, flushed := [] }

/-- Timer expiry (autosave.ts lines 103-106 with flush lines 51-52): the
callback nulls the timer, and `flush` captures the buffer and resets it to
`{}`; the captured content is recorded on `flushed`. -/
def fireTimer (st : DebounceState δ) : DebounceState δ :=
  { buffer := emptyUpdate, timer := none, flushed := st.flushed ++ [st.buffer] }

/-- Let wall-clock time reach `t`: a pending timer whose deadline has arrived
fires before the next event is processed (single-threaded event loop). -/
def advanceTo (t : Nat) (st : DebounceState δ) : DebounceState δ :=
  match st.timer with
  | some d => if d ≤ t then fireTimer st else st
  | none => st

/-- The `onChange` callback (autosave.ts lines 98-107) processed at
wall-clock time `ev.1` with update `ev.2`: merge the update into the buffer,
cancel any pending timer, arm a new one `delayMs` in the future. -/
def onChangeAt (delayMs : Nat) (st : DebounceState δ) (ev : Nat × DraftUpdate δ) :
    DebounceState δ :=
  { buffer := mergeUpdate (advanceTo ev.1 st).buffer ev.2
    timer := some (ev.1 + delayMs)
    flushed := (advanceTo ev.1 st).flushed }

/-- A quiet period after the last event: the armed timer, if any, fires. -/
def settleDebounce (st : DebounceState δ) : DebounceState δ :=
  match st.timer with
  | some _ => fireTimer st
  | none => st

/-- Two concrete updates used by the C7 witness. -/
def exUpdateA : DraftUpdate Nat :=
  { projectName := some "proj", promptName := none, docJson := some 1,
    selection := none }

/-- Second concrete update overriding `docJson` and adding a selection. -/
def exUpdateB : DraftUpdate Nat :=
  { projectName := none, promptName := none, docJson := some 2,
    selection := some (some { fromPos := 0, toPos := 1 }) }

/-- Strict "older than" order on snapshot rows: earlier `createdAt`, ties
broken by smaller store-assigned `id` (the eviction order of spec §3). -/
def snapLt (a b : SnapshotRecord δ) : Prop :=
  a.createdAt < b.createdAt ∨ (a.createdAt = b.createdAt ∧ a.id < b.id)

/-- Well-formedness of a store as Dexie maintains it: snapshot rows sit in
ascending primary-key order, every assigned id is at least 1 and below the
auto-increment counter, and the counter is at least 1. -/
def WF (s : Store δ) : Prop :=
  s.snapshots.Pairwise (fun a b => a.id < b.id) ∧
  (∀ r ∈ s.snapshots, 1 ≤ r.id ∧ r.id < s.nextSnapId) ∧
  1 ≤ s.nextSnapId

instance (s : Store δ) : Decidable (WF s) :=
  inferInstanceAs (Decidable
    (s.snapshots.Pairwise (fun (a b : SnapshotRecord δ) => a.id < b.id) ∧
      (∀ r ∈ s.snapshots, 1 ≤ r.id ∧ r.id < s.nextSnapId) ∧ 1 ≤ s.nextSnapId))

/-- The snapshot row the flush under consideration appends (Dexie assigns it
the current auto-increment id). -/
def newSnapOf (s : Store δ) (draftId : String) (u : DraftUpdate δ) (now : Nat) :
    SnapshotRecord δ :=
  { id := s.nextSnapId, draftId := draftId
    docJson := (mkNext draftId u (draftsGet s draftId) now).docJson
    selection := (mkNext draftId u (draftsGet s draftId) now).selection
    createdAt := now }

/-- The draft's snapshot rows right after the append, before eviction. -/
def preRows (s : Store δ) (draftId : String) (u : DraftUpdate δ) (now : Nat) :
    List (SnapshotRecord δ) :=
  snapshotsWhere s draftId ++ [newSnapOf s draftId u now]

/-- Primary keys the ring eviction targets: ids of the oldest
`count - limit` rows in eviction order (empty when the count stays within
the limit). -/
def evictIds (s : Store δ) (draftId : String) (u : DraftUpdate δ)
    (now limit : Nat) : List Nat :=
  ((sortByCreatedAt (preRows s draftId u now)).take
      ((preRows s draftId u now).length - limit)).map (fun r => r.id)

/-- A sequence of flushes on one identity, as the debounced timer would run
them (each pair is the flush time and the buffer content it captured). -/
def runFlushes (draftId : String) (limit : Nat) :
    Store δ → List (Nat × DraftUpdate δ) → Store δ
  | s, [] => s
  | s, p :: rest => runFlushes draftId limit (flush draftId p.2 p.1 limit s) rest

/-- Concrete store at the ring limit: two snapshots of `"d"` (ids 1 and 2,
created at 0 and 5), so the next flush must evict the oldest. -/
def exRingStore : Store Nat :=
  { drafts := []
    snapshots :=
      [{ id := 1, draftId := "d", docJson := some 1, selection := none, createdAt := 0 },
       { id := 2, draftId := "d", docJson := some 2, selection := none, createdAt := 5 }]
    nextSnapId := 3 }

/-- One store operation of the flush algorithm, for the transaction trace. -/
inductive FlushOp (δ : Type) where
  | getDraft (id : String)
  | putDraft (r : DraftRecord δ)
  | addSnapshot (draftId : String) (doc : Option δ)
      (sel : Option SelectionSnapshot) (createdAt : Nat)
  | countSnapshots (id : String)
  | sortSnapshots (id : String)
  | bulkDeleteOp (ids : List Nat)
deriving DecidableEq

/-- Effect of one operation on the store (reads have none). -/
def applyOp (s : Store δ) : FlushOp δ → Store δ
  | .getDraft _ => s
  | .putDraft r => draftsPut s r
  | .addSnapshot d doc sel t => snapshotsAdd s d doc sel t
  | .countSnapshots _ => s
  | .sortSnapshots _ => s
  | .bulkDeleteOp ids => bulkDelete s ids

/-- Whether an operation writes to the store. -/
def FlushOp.isWrite : FlushOp δ → Bool
  | .putDraft _ => true
  | .addSnapshot _ _ _ _ => true
  | .bulkDeleteOp _ => true
  | _ => false

/-- The sequence of store operations `flush` issues (autosave.ts lines
56-89), each tagged `true` when it runs inside the `db.transaction('rw', …)`
callback (lines 67-89) and `false` when it runs before the transaction
opens: the prior-Draft read of line 57 happens OUTSIDE the transaction. -/
def flushTrace (draftId : String) (update : DraftUpdate δ) (now : Nat)
    (snapshotLimit : Nat) (s : Store δ) : List (FlushOp δ × Bool) :=
  let prev := draftsGet s draftId
  let next := mkNext draftId update prev now
  let s1 := draftsPut s next
  let s2 := snapshotsAdd s1 draftId next.docJson next.selection now
  let rows := snapshotsWhere s2 draftId
  let count := rows.length
  (FlushOp.getDraft draftId, false) ::
  (FlushOp.putDraft next, true) ::
  (FlushOp.addSnapshot draftId next.docJson next.selection now, true) ::
  (FlushOp.countSnapshots draftId, true) ::
  (if snapshotLimit < count then
    (FlushOp.sortSnapshots draftId, true) ::
    (if (((sortByCreatedAt rows).take (count - snapshotLimit)).map
          (fun r => r.id)).filter (fun i => i ≠ 0) |>.isEmpty then []
     else [(FlushOp.bulkDeleteOp ((((sortByCreatedAt rows).take
          (count - snapshotLimit)).map (fun r => r.id)).filter (fun i => i ≠ 0)), true)])
  else [])

/-- Transactional execution with an optional failure point: `committed` is
what the store keeps if the open transaction rolls back, `cur` the tentative
state.  An operation outside any transaction commits its effect right away;
an operation inside the transaction only changes the tentative state.
Failing at index `i` aborts before executing operation `i` and yields the
committed state (the Durable Store's full rollback). -/
def runOpsFrom (failAt : Option Nat) :
    Nat → Store δ → Store δ → List (FlushOp δ × Bool) → Store δ
  | _, _, cur, [] => cur
  | i, committed, cur, (op, inTxn) :: rest =>
    if failAt = some i then committed
    else
      runOpsFrom failAt (i + 1)
        (if inTxn then committed else applyOp cur op) (applyOp cur op) rest

/-- Run a tagged operation list against a store, failing at `failAt`. -/
def runOps (s : Store δ) (ops : List (FlushOp δ × Bool)) (failAt : Option Nat) :
    Store δ :=
  runOpsFrom failAt 0 s s ops

/-- Helper: `find?` for the put key over a list whose matching entries were
replaced by `r` finds `r` exactly when some entry matched. -/
lemma find?_map_put (r : DraftRecord δ) (l : List (DraftRecord δ)) :
    (l.map (fun x => if x.id = r.id then r else x)).find? (fun x => x.id = r.id) =
      if l.any (fun x => x.id = r.id) then some r else none := by
  induction l with
  | nil => simp
  | cons a l ih =>
    by_cases h : a.id = r.id
    · simp [h]
    · simp [h, ih]

/-- Helper: appending `r` to a list with no entry keyed `r.id` makes `find?`
for that key return `r`. -/
lemma find?_append_put (r : DraftRecord δ) (l : List (DraftRecord δ))
    (h : l.any (fun x => x.id = r.id) = false) :
    (l ++ [r]).find? (fun x => x.id = r.id) = some r := by
  induction l with
  | nil => simp
  | cons a l ih =>
    simp only [List.any_cons, Bool.or_eq_false_iff, decide_eq_false_iff_not] at h
    simp [h.1, ih h.2]

/-- A `put` row is what `get` then returns for its key. -/
lemma draftsGet_draftsPut_self (s : Store δ) (r : DraftRecord δ) :
    draftsGet (draftsPut s r) r.id = some r := by
  unfold draftsGet draftsPut
  split
  · rename_i h
    dsimp only
    rw [find?_map_put, if_pos h]
  · rename_i h
    dsimp only
    exact find?_append_put r s.drafts (by simpa using h)

/-- Stores with the same drafts table answer `drafts.get` identically. -/
lemma draftsGet_congr {s₁ s₂ : Store δ} (h : s₁.drafts = s₂.drafts)
    (draftId : String) : draftsGet s₁ draftId = draftsGet s₂ draftId := by
  unfold draftsGet; rw [h]

/-- Upserting a draft leaves the snapshot table untouched. -/
lemma draftsPut_snapshots (s : Store δ) (r : DraftRecord δ) :
    (draftsPut s r).snapshots = s.snapshots := by
  unfold draftsPut; split <;> rfl

/-- Upserting a draft leaves the auto-increment counter untouched. -/
lemma draftsPut_nextSnapId (s : Store δ) (r : DraftRecord δ) :
    (draftsPut s r).nextSnapId = s.nextSnapId := by
  unfold draftsPut; split <;> rfl

/-- Flushing changes the drafts table exactly as the inner `put` does. -/
lemma flush_drafts (draftId : String) (u : DraftUpdate δ) (now limit : Nat)
    (s : Store δ) :
    (flush draftId u now limit s).drafts =
      (draftsPut s (mkNext draftId u (draftsGet s draftId) now)).drafts := by
  simp only [flush, snapshotsAdd, bulkDelete]
  split
  · split <;> rfl
  · rfl

/-- The draft row `flush` leaves behind for its identity is exactly the
`next` record it computed. -/
lemma draftsGet_flush (draftId : String) (u : DraftUpdate δ) (now limit : Nat)
    (s : Store δ) :
    draftsGet (flush draftId u now limit s) draftId =
      some (mkNext draftId u (draftsGet s draftId) now) := by
  have h2 := draftsGet_congr (flush_drafts draftId u now limit s) draftId
  rw [h2]
  exact draftsGet_draftsPut_self s (mkNext draftId u (draftsGet s draftId) now)

/-- C1: the claim (and spec §4.2 step 1) says a flush that runs with an empty
update buffer returns without writing — no version bump, no snapshot.  The
code disagrees: its guard `if (!bufferRef.current) return` can never fire
because the buffer always holds an object and objects are truthy, so flushing
the empty buffer `{}` still bumps the version, rewrites `updatedAt`, and
appends a snapshot.  Evaluated at a store holding a version-1 draft with one
snapshot: the flush produces version 2, a second snapshot, and a changed
Draft row. -/
theorem C1_empty_flush_writes :
    versionOf (flush "d" (emptyUpdate (δ := Nat)) 10 20 exStore) "d" = 2 ∧
    (snapshotsWhere (flush "d" (emptyUpdate (δ := Nat)) 10 20 exStore) "d").length = 2 ∧
    draftsGet (flush "d" (emptyUpdate (δ := Nat)) 10 20 exStore) "d" ≠
      draftsGet exStore "d" := by decide

/-- C2, counterexample: with a buffered explicit null selection
(`selection: null` present in the buffer) and a prior row whose selection is
`{from := 1, to := 2}`, the persisted row keeps the prior selection — JavaScript
`update.selection ?? prev?.selection ?? null` treats the buffered null as
nullish — whereas the claim's reading (`mkNextClaim`, buffered-if-present
wins) predicts a null selection.  So the claim as stated is false. -/
theorem C2_null_selection_cex :
    draftsGet (flush "d" exNullSelUpdate 10 20 exStore) "d" ≠
      some (mkNextClaim "d" exNullSelUpdate (draftsGet exStore "d") 10) ∧
    (draftsGet (flush "d" exNullSelUpdate 10 20 exStore) "d").map (fun r => r.selection) =
      some (some { fromPos := 1, toPos := 2 }) ∧
    (mkNextClaim "d" exNullSelUpdate (draftsGet exStore "d") 10).selection = none := by
  decide

/-- C2, amended: the persisted next state takes, for each of `projectName`,
`promptName`, `docJson`, the buffered value if present else the prior row's
value else absent; for `selection` it takes the buffered value only if it is
present AND non-null — a buffered explicit null selection falls through to
the prior row's selection (or null) — and `updatedAt` is the flush time while
`version` is the prior version plus 1 (1 with no prior row). -/
theorem C2_next_state (s : Store δ) (draftId : String) (u : DraftUpdate δ)
    (now limit : Nat) :
    draftsGet (flush draftId u now limit s) draftId = some
      { id := draftId
        projectName := u.projectName.orElse fun _ =>
          (draftsGet s draftId).bind (fun p => p.projectName)
        promptName := u.promptName.orElse fun _ =>
          (draftsGet s draftId).bind (fun p => p.promptName)
        docJson := u.docJson.orElse fun _ =>
          (draftsGet s draftId).bind (fun p => p.docJson)
        selection :=
          match u.selection with
          | some (some v) => some v
          | _ => (draftsGet s draftId).bind (fun p => p.selection)
        updatedAt := now
        version := ((draftsGet s draftId).map (fun p => p.version)).getD 0 + 1 } :=
  draftsGet_flush draftId u now limit s

/-- C9, counterexample: restoring a `snapshotId` with no stored row (id 99)
indeed makes no change, but nothing is reported anywhere the hook exposes —
`setDraft` is not called and the error channel stays empty, the function
silently returns — contradicting the claim's "reports not found". -/
theorem C9_silent_cex :
    (restoreFromSnapshot "d" 99 5 exStore).store = exStore ∧
    (restoreFromSnapshot "d" 99 5 exStore).draftSet = none ∧
    (restoreFromSnapshot "d" 99 5 exStore).errorSet = none := by decide

/-- C9, amended: for every `snapshotId` with no stored Snapshot row, restore
is a SILENT no-op: it makes no change to the Draft row or any other state and
is not fatal, but it does not report the missing snapshot on any channel. -/
theorem C9_notfound_noop (s : Store δ) (draftId : String) (k now : Nat)
    (h : snapshotsGet s k = none) :
    restoreFromSnapshot draftId k now s =
      { store := s, draftSet := none, errorSet := none } := by
  unfold restoreFromSnapshot
  rw [h]

/-- Witness for `C9_notfound_noop` at the concrete example store and the
absent snapshot id 99. -/
theorem C9_notfound_noop_witness :
    restoreFromSnapshot "d" 99 5 exStore =
      { store := exStore, draftSet := none, errorSet := none } :=
  C9_notfound_noop exStore "d" 99 5 (by decide)

/-- C8: restoring an existing snapshot upserts the Draft row — content
attributes (`docJson`, `selection`) from the snapshot, naming attributes
(`projectName`, `promptName`) carried over from the current Draft row,
`version` bumped by one — while leaving the Snapshot table (and its
auto-increment counter) entirely unchanged. -/
theorem C8_restore_frame (s : Store δ) (draftId : String) (k now : Nat)
    (snap : SnapshotRecord δ) (h : snapshotsGet s k = some snap) :
    (restoreFromSnapshot draftId k now s).store.snapshots = s.snapshots ∧
    (restoreFromSnapshot draftId k now s).store.nextSnapId = s.nextSnapId ∧
    draftsGet (restoreFromSnapshot draftId k now s).store draftId = some
      { id := draftId
        projectName := (draftsGet s draftId).bind (fun p => p.projectName)
        promptName := (draftsGet s draftId).bind (fun p => p.promptName)
        docJson := snap.docJson
        selection := snap.selection
        updatedAt := now
        version := ((draftsGet s draftId).map (fun p => p.version)).getD 0 + 1 } := by
  unfold restoreFromSnapshot
  rw [h]
  refine ⟨draftsPut_snapshots s _, draftsPut_nextSnapId s _, ?_⟩
  exact draftsGet_draftsPut_self s _

/-- Witness for `C8_restore_frame`: restore snapshot 1 of the example store. -/
theorem C8_restore_frame_witness :
    (restoreFromSnapshot "d" 1 5 exStore).store.snapshots = exStore.snapshots ∧
    (restoreFromSnapshot "d" 1 5 exStore).store.nextSnapId = exStore.nextSnapId ∧
    draftsGet (restoreFromSnapshot "d" 1 5 exStore).store "d" = some
      { id := "d"
        projectName := (draftsGet exStore "d").bind (fun p => p.projectName)
        promptName := (draftsGet exStore "d").bind (fun p => p.promptName)
        docJson := exSnap.docJson
        selection := exSnap.selection
        updatedAt := 5
        version := ((draftsGet exStore "d").map (fun p => p.version)).getD 0 + 1 } :=
  C8_restore_frame exStore "d" 1 5 exSnap (by decide)

/-- C10: `restoreFromSnapshot` fetches the snapshot by `snapshotId` alone and
never compares its `draftId` with the hook's: even when the snapshot belongs
to a DIFFERENT draft identity, its content is applied to the hook's Draft
row and `setDraft` is invoked with the new row. -/
theorem C10_cross_draft_restore (s : Store δ) (draftId : String) (k now : Nat)
    (snap : SnapshotRecord δ) (h : snapshotsGet s k = some snap)
    (_hdiff : snap.draftId ≠ draftId) :
    draftsGet (restoreFromSnapshot draftId k now s).store draftId = some
      { id := draftId
        projectName := (draftsGet s draftId).bind (fun p => p.projectName)
        promptName := (draftsGet s draftId).bind (fun p => p.promptName)
        docJson := snap.docJson
        selection := snap.selection
        updatedAt := now
        version := ((draftsGet s draftId).map (fun p => p.version)).getD 0 + 1 } ∧
    (restoreFromSnapshot draftId k now s).draftSet.isSome = true := by
  unfold restoreFromSnapshot
  rw [h]
  exact ⟨draftsGet_draftsPut_self s _, rfl⟩

/-- Witness for `C10_cross_draft_restore`: snapshot 9 belongs to `"other"`,
yet restoring it through the hook for `"d"` rewrites `"d"`'s Draft row with
its content. -/
theorem C10_cross_draft_restore_witness :
    draftsGet (restoreFromSnapshot "d" 9 5 exForeignStore).store "d" = some
      { id := "d"
        projectName := (draftsGet exForeignStore "d").bind (fun p => p.projectName)
        promptName := (draftsGet exForeignStore "d").bind (fun p => p.promptName)
        docJson := exForeignSnap.docJson
        selection := exForeignSnap.selection
        updatedAt := 5
        version := ((draftsGet exForeignStore "d").map (fun p => p.version)).getD 0 + 1 } ∧
    (restoreFromSnapshot "d" 9 5 exForeignStore).draftSet.isSome = true :=
  C10_cross_draft_restore exForeignStore "d" 9 5 exForeignSnap (by decide) (by decide)

/-- A flush bumps the identity's version by exactly one. -/
lemma versionOf_flush (draftId : String) (u : DraftUpdate δ) (now limit : Nat)
    (s : Store δ) :
    versionOf (flush draftId u now limit s) draftId = versionOf s draftId + 1 := by
  unfold versionOf
  rw [draftsGet_flush]
  rfl

/-- A restore that finds its snapshot bumps the identity's version by one. -/
lemma versionOf_restore_found (draftId : String) (k now : Nat) (s : Store δ)
    (snap : SnapshotRecord δ) (h : snapshotsGet s k = some snap) :
    versionOf (restoreFromSnapshot draftId k now s).store draftId =
      versionOf s draftId + 1 := by
  unfold versionOf restoreFromSnapshot
  rw [h]
  dsimp only
  rw [draftsGet_draftsPut_self]
  rfl

/-- Versions observed along a successful run count up one by one from the
starting version. -/
lemma statesAfter_versions (draftId : String) (limit : Nat) :
    ∀ (ops : List (HookOp δ)) (s : Store δ),
      allSuccessful draftId limit s ops = true →
      (statesAfter draftId limit s ops).map (fun t => versionOf t draftId) =
        List.range' (versionOf s draftId + 1) ops.length := by
  intro ops
  induction ops with
  | nil => intro s _; rfl
  | cons op rest ih =>
    intro s hs
    simp only [allSuccessful, Bool.and_eq_true] at hs
    have hstep : versionOf (stepOp draftId limit s op) draftId =
        versionOf s draftId + 1 := by
      cases op with
      | flushAt now u => exact versionOf_flush draftId u now limit s
      | restoreAt now k =>
        obtain ⟨snap, hsnap⟩ := Option.isSome_iff_exists.mp hs.1
        exact versionOf_restore_found draftId k now s snap hsnap
    simp only [statesAfter, List.map_cons, List.length_cons, List.range']
    rw [hstep, ih (stepOp draftId limit s op) hs.2, hstep]

/-- C4: starting from a store with no Draft row for the identity, any
sequence of successful flushes and restores makes the observed version
values exactly `1, 2, 3, …` — each successful operation increments the
version by one and the first write has version 1. -/
theorem C4_version_monotonic (draftId : String) (limit : Nat) (s : Store δ)
    (ops : List (HookOp δ)) (h0 : draftsGet s draftId = none)
    (hs : allSuccessful draftId limit s ops = true) :
    (statesAfter draftId limit s ops).map (fun t => versionOf t draftId) =
      List.range' 1 ops.length := by
  have hv : versionOf s draftId = 0 := by simp [versionOf, h0]
  have := statesAfter_versions draftId limit ops s hs
  rwa [hv] at this

/-- Witness for `C4_version_monotonic`: a flush then a restore of the
snapshot that flush created (id 1) observe versions `[1, 2]`. -/
theorem C4_version_monotonic_witness :
    (statesAfter "d" 20 exEmptyStore
        [HookOp.flushAt 1 (emptyUpdate (δ := Nat)), HookOp.restoreAt 2 1]).map
      (fun t => versionOf t "d") = List.range' 1 2 :=
  C4_version_monotonic "d" 20 exEmptyStore _ (by decide) (by decide)

/-- Running the tail of a burst whose gaps stay under `delayMs` never fires
an intermediate timer, and settling afterwards flushes once with the
left-to-right merge of the buffer so far and all remaining updates. -/
lemma debounce_aux (delayMs : Nat) :
    ∀ (rest : List (Nat × DraftUpdate δ)) (t : Nat) (u0 : DraftUpdate δ)
      (b : DraftUpdate δ) (F : List (DraftUpdate δ)),
      List.Chain' (fun p q => q.1 < p.1 + delayMs) ((t, u0) :: rest) →
      settleDebounce (rest.foldl (onChangeAt delayMs)
          { buffer := b, timer := some (t + delayMs), flushed := F }) =
        { buffer := emptyUpdate, timer := none,
          flushed := F ++ [rest.foldl (fun acc p => mergeUpdate acc p.2) b] } := by
  intro rest
  induction rest with
  | nil => intro t u0 b F _; rfl
  | cons ev rest ih =>
    intro t u0 b F hch
    obtain ⟨t', u'⟩ := ev
    rw [List.chain'_cons] at hch
    have hgap : t' < t + delayMs := hch.1
    have hstep : onChangeAt delayMs
        { buffer := b, timer := some (t + delayMs), flushed := F } (t', u') =
        { buffer := mergeUpdate b u', timer := some (t' + delayMs), flushed := F } := by
      simp [onChangeAt, advanceTo, Nat.not_le.mpr hgap]
    rw [List.foldl_cons, hstep, List.foldl_cons]
    exact ih t' u' (mergeUpdate b u') F hch.2

/-- C7: a non-empty burst of `onChange` calls, each arriving within `delayMs`
of the previous one, produces exactly one flush — after the quiet period —
whose content is the left-to-right shallow field merge of all the updates,
later updates overriding earlier ones per attribute and absent attributes
left untouched (built into `mergeUpdate`). -/
theorem C7_debounce (delayMs : Nat) (events : List (Nat × DraftUpdate δ))
    (hne : events ≠ [])
    (hch : List.Chain' (fun p q => q.1 < p.1 + delayMs) events) :
    settleDebounce (events.foldl (onChangeAt delayMs) initDebounce) =
      { buffer := emptyUpdate, timer := none,
        flushed := [events.foldl (fun acc p => mergeUpdate acc p.2) emptyUpdate] } := by
  match events with
  | [] => exact absurd rfl hne
  | (t, u) :: rest =>
    rw [List.foldl_cons, List.foldl_cons]
    have hstep : onChangeAt delayMs initDebounce (t, u) =
        { buffer := mergeUpdate emptyUpdate u, timer := some (t + delayMs),
          flushed := [] } := rfl
    rw [hstep]
    simpa using debounce_aux delayMs rest t u (mergeUpdate emptyUpdate u) [] hch

/-- Witness for `C7_debounce`: two onChange calls 500 ms apart with
`delayMs = 1200` coalesce into one flush of their merge. -/
theorem C7_debounce_witness :
    settleDebounce ([((0 : Nat), exUpdateA), ((500 : Nat), exUpdateB)].foldl
        (onChangeAt 1200) initDebounce) =
      { buffer := emptyUpdate, timer := none,
        flushed := [[((0 : Nat), exUpdateA), ((500 : Nat), exUpdateB)].foldl
          (fun acc p => mergeUpdate acc p.2) emptyUpdate] } :=
  C7_debounce 1200 [(0, exUpdateA), (500, exUpdateB)] (by decide)
    (by simp [List.chain'_cons])

/-- From non-decreasing `createdAt` and strictly increasing id to the strict
eviction order. -/
lemma snapLt_of_le_of_id {a b : SnapshotRecord δ}
    (hle : a.createdAt ≤ b.createdAt) (hid : a.id < b.id) : snapLt a b := by
  rcases Nat.lt_or_ge a.createdAt b.createdAt with h | h
  · exact Or.inl h
  · exact Or.inr ⟨Nat.le_antisymm hle h, hid⟩

/-- The eviction order implies non-decreasing `createdAt`. -/
lemma snapLt_le {a b : SnapshotRecord δ} (h : snapLt a b) :
    a.createdAt ≤ b.createdAt := by
  rcases h with h | ⟨h, _⟩
  · exact Nat.le_of_lt h
  · exact Nat.le_of_eq h

/-- Inserting a row whose id is below every id in a `snapLt`-sorted list
keeps the list `snapLt`-sorted: this is where stability of the sort meets
the ascending-id iteration order. -/
lemma pairwise_snapLt_orderedInsert (a : SnapshotRecord δ) :
    ∀ l : List (SnapshotRecord δ),
      (∀ b ∈ l, a.id < b.id) → l.Pairwise snapLt →
      (List.orderedInsert (fun x y => x.createdAt ≤ y.createdAt) a l).Pairwise snapLt
  | [] => by
    intro _ _
    simp
  | b :: l => by
    intro ha hbl
    rw [List.pairwise_cons] at hbl
    rw [List.orderedInsert]
    by_cases h : a.createdAt ≤ b.createdAt
    · rw [if_pos h]
      rw [List.pairwise_cons]
      refine ⟨?_, List.pairwise_cons.mpr ⟨hbl.1, hbl.2⟩⟩
      intro y hy
      rcases List.mem_cons.mp hy with hy | hy
      · rw [hy]
        exact snapLt_of_le_of_id h (ha b (List.mem_cons_self b l))
      · exact snapLt_of_le_of_id (Nat.le_trans h (snapLt_le (hbl.1 y hy)))
          (ha y (List.mem_cons_of_mem b hy))
    · rw [if_neg h]
      rw [List.pairwise_cons]
      refine ⟨?_, pairwise_snapLt_orderedInsert a l
        (fun y hy => ha y (List.mem_cons_of_mem b hy)) hbl.2⟩
      intro y hy
      rcases (List.mem_orderedInsert _).mp hy with hy | hy
      · rw [hy]
        exact Or.inl (Nat.lt_of_not_le h)
      · exact hbl.1 y hy

/-- Stable-sorting a list whose ids strictly increase yields a list strictly
sorted in the eviction order (`createdAt`, ties by ascending id). -/
lemma pairwise_snapLt_sortByCreatedAt :
    ∀ l : List (SnapshotRecord δ), l.Pairwise (fun a b => a.id < b.id) →
      (sortByCreatedAt l).Pairwise snapLt
  | [] => by
    intro _
    simp [sortByCreatedAt]
  | a :: l => by
    intro h
    rw [List.pairwise_cons] at h
    have hperm := List.perm_insertionSort
      (fun (x y : SnapshotRecord δ) => x.createdAt ≤ y.createdAt) l
    exact pairwise_snapLt_orderedInsert a _
      (fun b hb => h.1 b (hperm.mem_iff.mp hb))
      (pairwise_snapLt_sortByCreatedAt l h.2)

/-- The stable sort is a permutation of its input. -/
lemma sortByCreatedAt_perm (l : List (SnapshotRecord δ)) :
    List.Perm (sortByCreatedAt l) l :=
  List.perm_insertionSort _ l

/-- Snapshot table right after flush's `put` and `add`: the appended row. -/
lemma flush_s2_snapshots (draftId : String) (u : DraftUpdate δ) (now : Nat)
    (s : Store δ) :
    (snapshotsAdd (draftsPut s (mkNext draftId u (draftsGet s draftId) now)) draftId
        (mkNext draftId u (draftsGet s draftId) now).docJson
        (mkNext draftId u (draftsGet s draftId) now).selection now).snapshots =
      s.snapshots ++ [newSnapOf s draftId u now] := by
  simp [snapshotsAdd, draftsPut_snapshots, draftsPut_nextSnapId, newSnapOf]

/-- The draft's rows counted inside the transaction are the prior ones plus
the appended snapshot. -/
lemma flush_s2_where (draftId : String) (u : DraftUpdate δ) (now : Nat)
    (s : Store δ) :
    snapshotsWhere
        (snapshotsAdd (draftsPut s (mkNext draftId u (draftsGet s draftId) now)) draftId
          (mkNext draftId u (draftsGet s draftId) now).docJson
          (mkNext draftId u (draftsGet s draftId) now).selection now) draftId =
      preRows s draftId u now := by
  unfold snapshotsWhere preRows
  rw [flush_s2_snapshots, List.filter_append]
  congr 1
  simp [newSnapOf, snapshotsWhere]

/-- Flushing always bumps the snapshot auto-increment counter by one. -/
lemma flush_nextSnapId (draftId : String) (u : DraftUpdate δ) (now limit : Nat)
    (s : Store δ) :
    (flush draftId u now limit s).nextSnapId = s.nextSnapId + 1 := by
  simp only [flush, snapshotsAdd, bulkDelete]
  split
  · split <;> simp [draftsPut_nextSnapId]
  · simp [draftsPut_nextSnapId]

/-- Every row involved in the flush (prior rows of the draft plus the new
one) has a positive id in a well-formed store. -/
lemma preRows_id_pos (draftId : String) (u : DraftUpdate δ) (now : Nat)
    (s : Store δ) (hwf : WF s) :
    ∀ r ∈ preRows s draftId u now, 1 ≤ r.id := by
  intro r hr
  rcases List.mem_append.mp hr with hr | hr
  · exact (hwf.2.1 r (List.mem_of_mem_filter hr)).1
  · rw [List.mem_singleton] at hr
    rw [hr]
    exact hwf.2.2

/-- In a well-formed store the rows involved in the flush have strictly
increasing ids (the new row gets the largest id of all). -/
lemma preRows_pairwise (draftId : String) (u : DraftUpdate δ) (now : Nat)
    (s : Store δ) (hwf : WF s) :
    (preRows s draftId u now).Pairwise (fun a b => a.id < b.id) := by
  unfold preRows
  rw [List.pairwise_append]
  refine ⟨hwf.1.sublist (List.filter_sublist _), List.pairwise_singleton _ _, ?_⟩
  intro x hx y hy
  rw [List.mem_singleton] at hy
  rw [hy]
  exact (hwf.2.1 x (List.mem_of_mem_filter hx)).2

/-- The eviction id list has exactly `count - limit` entries. -/
lemma evictIds_length (draftId : String) (u : DraftUpdate δ) (now limit : Nat)
    (s : Store δ) :
    (evictIds s draftId u now limit).length =
      (preRows s draftId u now).length - limit := by
  unfold evictIds
  rw [List.length_map, List.length_take, (sortByCreatedAt_perm _).length_eq]
  omega

/-- The `.filter(Boolean)` step of the source never drops anything: every
collected id is positive in a well-formed store. -/
lemma evictIds_filter_ne_zero (draftId : String) (u : DraftUpdate δ)
    (now limit : Nat) (s : Store δ) (hwf : WF s) :
    (evictIds s draftId u now limit).filter (fun i => i ≠ 0) =
      evictIds s draftId u now limit := by
  apply List.filter_eq_self.mpr
  intro i hi
  unfold evictIds at hi
  obtain ⟨r, hr, hri⟩ := List.mem_map.mp hi
  have hr1 : r ∈ preRows s draftId u now :=
    (sortByCreatedAt_perm _).mem_iff.mp (List.mem_of_mem_take hr)
  have := preRows_id_pos draftId u now s hwf r hr1
  rw [← hri]
  simp only [ne_eq, decide_eq_true_eq]
  omega

/-- Master description of the flush's effect on the snapshot table: append
the new row, then drop exactly the rows whose ids the eviction collected. -/
lemma flush_snapshots_eq (draftId : String) (u : DraftUpdate δ) (now limit : Nat)
    (s : Store δ) (hwf : WF s) :
    (flush draftId u now limit s).snapshots =
      (s.snapshots ++ [newSnapOf s draftId u now]).filter
        (fun r => r.id ∉ evictIds s draftId u now limit) := by
  have hevict : evictIds s draftId u now limit =
      ((sortByCreatedAt (preRows s draftId u now)).take
        ((preRows s draftId u now).length - limit)).map (fun r => r.id) := rfl
  simp only [flush]
  rw [flush_s2_where draftId u now s]
  split
  · rename_i hlt
    rw [← hevict, evictIds_filter_ne_zero draftId u now limit s hwf]
    split
    · rename_i hempty
      exfalso
      rw [List.isEmpty_iff] at hempty
      have := evictIds_length draftId u now limit s
      rw [hempty] at this
      simp only [List.length_nil] at this
      omega
    · simp only [bulkDelete]
      rw [flush_s2_snapshots]
  · rename_i hge
    have hnil : evictIds s draftId u now limit = [] := by
      rw [hevict, Nat.sub_eq_zero_of_le (Nat.le_of_not_lt hge)]
      rfl
    rw [flush_s2_snapshots, hnil]
    symm
    apply List.filter_eq_self.mpr
    intro r _
    simp

/-- Flushing preserves store well-formedness. -/
lemma WF_flush (draftId : String) (u : DraftUpdate δ) (now limit : Nat)
    (s : Store δ) (hwf : WF s) : WF (flush draftId u now limit s) := by
  have hsnaps := flush_snapshots_eq draftId u now limit s hwf
  have hnext := flush_nextSnapId draftId u now limit s
  refine ⟨?_, ?_, ?_⟩
  · rw [hsnaps]
    apply List.Pairwise.sublist (List.filter_sublist _)
    rw [List.pairwise_append]
    refine ⟨hwf.1, List.pairwise_singleton _ _, ?_⟩
    intro x hx y hy
    rw [List.mem_singleton] at hy
    rw [hy]
    exact (hwf.2.1 x hx).2
  · intro r hr
    rw [hnext]
    rw [hsnaps] at hr
    rcases List.mem_append.mp (List.mem_of_mem_filter hr) with hr | hr
    · have := hwf.2.1 r hr
      omega
    · rw [List.mem_singleton] at hr
      rw [hr]
      refine ⟨hwf.2.2, ?_⟩
      simp [newSnapOf]
  · rw [hnext]
    omega

/-- Counting core: removing the rows whose ids were collected from the first
`t` sorted rows deletes exactly `t` rows, thanks to id distinctness. -/
lemma length_filter_not_mem_take (pre : List (SnapshotRecord δ)) (t : Nat)
    (hnd : pre.Pairwise (fun a b => a.id < b.id)) :
    (pre.filter (fun r =>
        r.id ∉ ((sortByCreatedAt pre).take t).map (fun r => r.id))).length =
      pre.length - t := by
  obtain ⟨sorted, hsorted⟩ : ∃ x, x = sortByCreatedAt pre := ⟨_, rfl⟩
  rw [← hsorted]
  obtain ⟨ids, hids⟩ : ∃ x, x = (sorted.take t).map (fun r => r.id) := ⟨_, rfl⟩
  rw [← hids]
  have hperm : List.Perm sorted pre := hsorted ▸ sortByCreatedAt_perm pre
  have hpermf := hperm.symm.filter (fun r => decide (r.id ∉ ids))
  rw [hpermf.length_eq]
  have hnodup : (sorted.map (fun r => r.id)).Nodup := by
    apply (hperm.map (fun r => r.id)).nodup_iff.mpr
    exact (List.pairwise_map.mpr hnd).imp Nat.ne_of_lt
  have hsplit := List.take_append_drop t sorted
  have hdisj : ∀ i ∈ ids, i ∉ (sorted.drop t).map (fun r => r.id) := by
    rw [← hsplit, List.map_append] at hnodup
    rw [hids]
    exact fun i hi => (List.nodup_append.mp hnodup).2.2 hi
  have hA : (sorted.take t).filter (fun r => r.id ∉ ids) = [] := by
    apply List.filter_eq_nil_iff.mpr
    intro r hr
    simp only [decide_eq_true_eq, not_not]
    rw [hids]
    exact List.mem_map.mpr ⟨r, hr, rfl⟩
  have hB : (sorted.drop t).filter (fun r => r.id ∉ ids) =
      sorted.drop t := by
    apply List.filter_eq_self.mpr
    intro r hr
    simp only [decide_eq_true_eq]
    intro hmem
    exact hdisj r.id hmem (List.mem_map.mpr ⟨r, hr, rfl⟩)
  calc (sorted.filter (fun r => r.id ∉ ids)).length
      = ((sorted.take t ++ sorted.drop t).filter (fun r => r.id ∉ ids)).length := by
        rw [hsplit]
    _ = ((sorted.take t).filter (fun r => r.id ∉ ids) ++
          (sorted.drop t).filter (fun r => r.id ∉ ids)).length := by
        rw [List.filter_append]
    _ = (sorted.drop t).length := by rw [hA, hB, List.nil_append]
    _ = sorted.length - t := List.length_drop t sorted
    _ = pre.length - t := by rw [hperm.length_eq]

/-- The draft's snapshot rows after a flush: prior rows plus the new one,
minus exactly the rows the eviction targeted. -/
lemma flush_snapshotsWhere (draftId : String) (u : DraftUpdate δ) (now limit : Nat)
    (s : Store δ) (hwf : WF s) :
    snapshotsWhere (flush draftId u now limit s) draftId =
      (preRows s draftId u now).filter
        (fun r => r.id ∉ evictIds s draftId u now limit) := by
  unfold snapshotsWhere
  rw [flush_snapshots_eq draftId u now limit s hwf, List.filter_filter]
  have hpre : preRows s draftId u now =
      (s.snapshots ++ [newSnapOf s draftId u now]).filter
        (fun r => r.draftId = draftId) := by
    unfold preRows snapshotsWhere
    rw [List.filter_append]
    congr 1
    simp [newSnapOf]
  rw [hpre, List.filter_filter]
  apply List.filter_congr
  intro a _
  exact Bool.and_comm _ _

/-- A flush takes the draft's snapshot count from `c` to `min (c + 1) limit`. -/
lemma snapCount_flush (draftId : String) (u : DraftUpdate δ) (now limit : Nat)
    (s : Store δ) (hwf : WF s) :
    (snapshotsWhere (flush draftId u now limit s) draftId).length =
      min ((snapshotsWhere s draftId).length + 1) limit := by
  rw [flush_snapshotsWhere draftId u now limit s hwf]
  have hpp := preRows_pairwise draftId u now s hwf
  have hlen : (preRows s draftId u now).length =
      (snapshotsWhere s draftId).length + 1 := by
    simp [preRows]
  have hevict : evictIds s draftId u now limit =
      ((sortByCreatedAt (preRows s draftId u now)).take
        ((preRows s draftId u now).length - limit)).map (fun r => r.id) := rfl
  rw [hevict, length_filter_not_mem_take _ _ hpp, hlen]
  omega

/-- Generalized ring bound: from any well-formed store already within the
limit, `n` flushes land on `min (start + n) limit` snapshots. -/
lemma runFlushes_count (draftId : String) (limit : Nat) :
    ∀ (fl : List (Nat × DraftUpdate δ)) (s : Store δ), WF s →
      (snapshotsWhere s draftId).length ≤ limit →
      (snapshotsWhere (runFlushes draftId limit s fl) draftId).length =
        min ((snapshotsWhere s draftId).length + fl.length) limit := by
  intro fl
  induction fl with
  | nil =>
    intro s _ hle
    simp only [runFlushes, List.length_nil]
    omega
  | cons p rest ih =>
    intro s hwf hle
    have hcount := snapCount_flush draftId p.2 p.1 limit s hwf
    have hwf1 := WF_flush draftId p.2 p.1 limit s hwf
    have hle1 : (snapshotsWhere (flush draftId p.2 p.1 limit s) draftId).length ≤
        limit := by
      rw [hcount]; omega
    show (snapshotsWhere (runFlushes draftId limit
        (flush draftId p.2 p.1 limit s) rest) draftId).length = _
    rw [ih (flush draftId p.2 p.1 limit s) hwf1 hle1, hcount]
    simp only [List.length_cons]
    omega

/-- C5: starting from a well-formed store holding no snapshots for the
identity, after `n` flushes the stored snapshot count is
`min n snapshotLimit` — in particular it never exceeds the limit once a
flush has completed. -/
theorem C5_ring_bound (draftId : String) (limit : Nat) (s : Store δ)
    (fl : List (Nat × DraftUpdate δ)) (hwf : WF s)
    (h0 : snapshotsWhere s draftId = []) (_hL : 1 ≤ limit) :
    (snapshotsWhere (runFlushes draftId limit s fl) draftId).length =
      min fl.length limit := by
  have h := runFlushes_count draftId limit fl s hwf (by rw [h0]; simp)
  rw [h0] at h
  simpa using h

/-- Witness for `C5_ring_bound`: three flushes against `snapshotLimit = 2`
leave exactly two snapshots. -/
theorem C5_ring_bound_witness :
    (snapshotsWhere (runFlushes "d" 2 exEmptyStore
        [(0, exUpdateA), (5, exUpdateB), (10, exUpdateA)]) "d").length =
      min 3 2 :=
  C5_ring_bound "d" 2 exEmptyStore [(0, exUpdateA), (5, exUpdateB), (10, exUpdateA)]
    (by decide) (by decide) (by decide)

/-- C6: whenever the ring eviction of a flush deletes snapshot rows, the
deleted rows are exactly the oldest by `createdAt` with ties broken by
ascending id — every deleted row is strictly older (in that order) than
every retained row — and the retained rows are exactly the
`min count limit` most recent ones from among the prior rows plus the new
one. -/
theorem C6_ring_ordering (s : Store δ) (draftId : String) (u : DraftUpdate δ)
    (now limit : Nat) (hwf : WF s)
    (pre after deleted : List (SnapshotRecord δ))
    (hpre : pre = preRows s draftId u now)
    (hafter : after = snapshotsWhere (flush draftId u now limit s) draftId)
    (hdel : deleted = pre.filter (fun r => r.id ∉ after.map (fun y => y.id))) :
    after.length = min pre.length limit ∧
    (∀ y ∈ after, y ∈ pre) ∧
    (∀ x ∈ deleted, ∀ y ∈ after, snapLt x y) := by
  subst hdel hafter hpre
  have hpp := preRows_pairwise draftId u now s hwf
  have hevict : evictIds s draftId u now limit =
      ((sortByCreatedAt (preRows s draftId u now)).take
        ((preRows s draftId u now).length - limit)).map (fun r => r.id) := rfl
  rw [flush_snapshotsWhere draftId u now limit s hwf]
  obtain ⟨pre, hpre⟩ : ∃ x, x = preRows s draftId u now := ⟨_, rfl⟩
  rw [← hpre] at hpp hevict ⊢
  obtain ⟨t, htdef⟩ : ∃ x, x = pre.length - limit := ⟨_, rfl⟩
  rw [← htdef] at hevict
  obtain ⟨sorted, hsorted⟩ : ∃ x, x = sortByCreatedAt pre := ⟨_, rfl⟩
  rw [← hsorted] at hevict
  have hperm : List.Perm sorted pre := hsorted ▸ sortByCreatedAt_perm pre
  have hsplit := List.take_append_drop t sorted
  have hnodup : (sorted.map (fun r => r.id)).Nodup := by
    apply (hperm.map (fun r => r.id)).nodup_iff.mpr
    exact (List.pairwise_map.mpr hpp).imp Nat.ne_of_lt
  have hdisj : ∀ i ∈ (sorted.take t).map (fun r => r.id),
      i ∉ (sorted.drop t).map (fun r => r.id) := by
    rw [← hsplit, List.map_append] at hnodup
    exact fun i hi => (List.nodup_append.mp hnodup).2.2 hi
  have htd : ∀ a ∈ sorted.take t, ∀ b ∈ sorted.drop t, snapLt a b := by
    have hsl : sorted.Pairwise snapLt :=
      hsorted ▸ pairwise_snapLt_sortByCreatedAt pre hpp
    rw [← hsplit] at hsl
    exact (List.pairwise_append.mp hsl).2.2
  refine ⟨?_, ?_, ?_⟩
  · rw [hevict, hsorted, length_filter_not_mem_take pre t hpp]
    omega
  · intro y hy
    exact List.mem_of_mem_filter hy
  · intro x hx y hy
    have hx1 : x ∈ pre := List.mem_of_mem_filter hx
    have hx2 : x.id ∉ (pre.filter (fun r =>
        r.id ∉ evictIds s draftId u now limit)).map (fun y => y.id) := by
      have := (List.mem_filter.mp hx).2
      simpa using this
    have hy1 : y ∈ pre := List.mem_of_mem_filter hy
    have hy2 : y.id ∉ evictIds s draftId u now limit := by
      have := (List.mem_filter.mp hy).2
      simpa using this
    have hxs : x ∈ sorted := hperm.mem_iff.mpr hx1
    have hys : y ∈ sorted := hperm.mem_iff.mpr hy1
    rw [← hsplit] at hxs hys
    have hxtake : x ∈ sorted.take t := by
      rcases List.mem_append.mp hxs with h | h
      · exact h
      · exfalso
        have hxid : x.id ∉ evictIds s draftId u now limit := by
          rw [hevict]
          intro hmem
          exact hdisj x.id hmem (List.mem_map.mpr ⟨x, h, rfl⟩)
        apply hx2
        apply List.mem_map.mpr
        refine ⟨x, ?_, rfl⟩
        apply List.mem_filter.mpr
        exact ⟨hx1, by simpa using hxid⟩
    have hydrop : y ∈ sorted.drop t := by
      rcases List.mem_append.mp hys with h | h
      · exfalso
        apply hy2
        rw [hevict]
        exact List.mem_map.mpr ⟨y, h, rfl⟩
      · exact h
    exact htd x hxtake y hydrop

/-- Witness for `C6_ring_ordering`: flushing into `exRingStore` with
`snapshotLimit = 2` retains two rows, all drawn from the three candidates,
and everything deleted is older than everything retained. -/
theorem C6_ring_ordering_witness :
    (snapshotsWhere (flush "d" exUpdateA 10 2 exRingStore) "d").length =
      min (preRows exRingStore "d" exUpdateA 10).length 2 ∧
    (∀ y ∈ snapshotsWhere (flush "d" exUpdateA 10 2 exRingStore) "d",
      y ∈ preRows exRingStore "d" exUpdateA 10) ∧
    (∀ x ∈ (preRows exRingStore "d" exUpdateA 10).filter (fun r =>
        r.id ∉ (snapshotsWhere (flush "d" exUpdateA 10 2 exRingStore) "d").map
          (fun y => y.id)),
      ∀ y ∈ snapshotsWhere (flush "d" exUpdateA 10 2 exRingStore) "d", snapLt x y) :=
  C6_ring_ordering exRingStore "d" exUpdateA 10 2 (by decide) _ _ _ rfl rfl rfl

/-- Without a failure, transactional execution is just the fold of the
effects. -/
lemma runOpsFrom_none :
    ∀ (ops : List (FlushOp δ × Bool)) (j : Nat) (committed cur : Store δ),
      runOpsFrom none j committed cur ops =
        ops.foldl (fun t p => applyOp t p.1) cur := by
  intro ops
  induction ops with
  | nil => intro j c cur; rfl
  | cons p rest ih =>
    intro j c cur
    obtain ⟨op, inTxn⟩ := p
    simp only [runOpsFrom, List.foldl_cons]
    rw [if_neg (by simp)]
    exact ih (j + 1) _ _

/-- Failing anywhere strictly inside a run whose every operation is inside
the transaction leaves the committed state untouched. -/
lemma runOpsFrom_txn_fail {ops : List (FlushOp δ × Bool)}
    (hops : ∀ op ∈ ops, op.2 = true) :
    ∀ (k j : Nat) (committed cur : Store δ), j ≤ k → k < j + ops.length →
      runOpsFrom (some k) j committed cur ops = committed := by
  induction ops with
  | nil =>
    intro k j c cur hj hk
    simp only [List.length_nil] at hk
    omega
  | cons p rest ih =>
    intro k j c cur hj hk
    obtain ⟨op, inTxn⟩ := p
    have hin : inTxn = true := hops (op, inTxn) (List.mem_cons_self _ _)
    subst hin
    by_cases hkj : k = j
    · subst hkj
      simp [runOpsFrom]
    · simp only [runOpsFrom]
      rw [if_neg (by simpa using hkj), if_pos trivial]
      apply ih (fun op hop => hops op (List.mem_cons_of_mem _ hop)) k (j + 1)
      · omega
      · simp only [List.length_cons] at hk
        omega

/-- Every operation after the head of the flush trace runs inside the
transaction. -/
lemma flushTrace_tail_txn (draftId : String) (u : DraftUpdate δ)
    (now limit : Nat) (s : Store δ) :
    ∀ op ∈ (flushTrace draftId u now limit s).tail, op.2 = true := by
  intro op hop
  simp only [flushTrace, List.tail_cons] at hop
  rcases List.mem_cons.mp hop with h | hop
  · rw [h]
  rcases List.mem_cons.mp hop with h | hop
  · rw [h]
  rcases List.mem_cons.mp hop with h | hop
  · rw [h]
  split at hop
  · rcases List.mem_cons.mp hop with h | hop
    · rw [h]
    split at hop
    · simp at hop
    · rw [List.mem_singleton.mp hop]
  · simp at hop

/-- Every write of the flush trace is inside the transaction; only the
prior-Draft read is outside. -/
lemma flushTrace_writes_txn (draftId : String) (u : DraftUpdate δ)
    (now limit : Nat) (s : Store δ) :
    ∀ op ∈ flushTrace draftId u now limit s, op.1.isWrite = true → op.2 = true := by
  intro op hop hw
  have hdec : flushTrace draftId u now limit s =
      (FlushOp.getDraft draftId, false) ::
        (flushTrace draftId u now limit s).tail := rfl
  rw [hdec] at hop
  rcases List.mem_cons.mp hop with h | hop
  · rw [h] at hw
    simp [FlushOp.isWrite] at hw
  · exact flushTrace_tail_txn draftId u now limit s op hop

/-- A failure-free run of the trace computes exactly what `flush` does. -/
lemma runOps_flushTrace_none (draftId : String) (u : DraftUpdate δ)
    (now limit : Nat) (s : Store δ) :
    runOps s (flushTrace draftId u now limit s) none =
      flush draftId u now limit s := by
  rw [runOps, runOpsFrom_none]
  simp only [flushTrace, flush]
  split
  · split
    · simp [applyOp]
    · simp [applyOp]
  · simp [applyOp]

/-- C3, counterexample: the claim says the prior-Draft read executes as part
of the atomic transaction; in the trace of a concrete flush the read is
tagged as running outside the transaction, so not every operation of the
algorithm is transactional. -/
theorem C3_read_outside_cex :
    ¬ (∀ op ∈ flushTrace "d" (emptyUpdate (δ := Nat)) 10 20 exStore,
        op.2 = true) := by
  decide

/-- C3, amended: the Draft upsert, the Snapshot append and the eviction —
all the writes — run inside one atomic transaction, while the prior-Draft
read runs before it; consequently a failure at any point of the flush rolls
the store back in full (never a Draft update without its Snapshot, never an
eviction without the write it protects), and a failure-free run is exactly
`flush`. -/
theorem C3_txn_rollback (draftId : String) (u : DraftUpdate δ)
    (now limit : Nat) (s : Store δ) (i : Nat)
    (hi : i < (flushTrace draftId u now limit s).length) :
    runOps s (flushTrace draftId u now limit s) (some i) = s ∧
    runOps s (flushTrace draftId u now limit s) none =
      flush draftId u now limit s ∧
    (∀ op ∈ flushTrace draftId u now limit s, op.1.isWrite = true → op.2 = true) := by
  refine ⟨?_, runOps_flushTrace_none draftId u now limit s,
    flushTrace_writes_txn draftId u now limit s⟩
  have hdec : flushTrace draftId u now limit s =
      (FlushOp.getDraft draftId, false) ::
        (flushTrace draftId u now limit s).tail := rfl
  have hlen : (flushTrace draftId u now limit s).length =
      (flushTrace draftId u now limit s).tail.length + 1 := by
    conv_lhs => rw [hdec]
    simp [List.length_cons]
  cases i with
  | zero =>
    rw [runOps, hdec]
    simp [runOpsFrom]
  | succ j =>
    rw [runOps, hdec]
    simp only [runOpsFrom]
    rw [if_neg (by simp)]
    have happ : applyOp s (FlushOp.getDraft draftId) = s := rfl
    simp only [Bool.false_eq_true, if_false, happ]
    apply runOpsFrom_txn_fail (flushTrace_tail_txn draftId u now limit s) (j + 1) 1
    · omega
    · rw [hlen] at hi
      omega

/-- Witness for `C3_txn_rollback`: failing at index 2 (inside the
transaction, right before the Snapshot append) of a concrete flush leaves
the example store exactly as it was. -/
theorem C3_txn_rollback_witness :
    runOps exStore (flushTrace "d" (emptyUpdate (δ := Nat)) 10 20 exStore)
        (some 2) = exStore ∧
    runOps exStore (flushTrace "d" (emptyUpdate (δ := Nat)) 10 20 exStore)
        none = flush "d" (emptyUpdate (δ := Nat)) 10 20 exStore ∧
    (∀ op ∈ flushTrace "d" (emptyUpdate (δ := Nat)) 10 20 exStore,
      op.1.isWrite = true → op.2 = true) :=
  C3_txn_rollback "d" (emptyUpdate (δ := Nat)) 10 20 exStore 2 (by decide)

end Smriti
